import Mathlib

/-!
Shallow embedding of the `snow` logging facade (`include/base_log.h`).

The C++ source wraps spdlog: `LogMessage` is the per-call stream object whose
destructor formats the accumulated text in glog style and hands it to a
process-wide `spdlog::logger`; `Logger` is the static registry with
`Init` / `SetLevel` / `Flush` / `Shutdown`.

Machine integers (`size_t` thread hash, `int` line) are modelled as `Nat` / `Int`;
the wall clock and the calling thread are an explicit environment.  spdlog's
`logger::log` is modelled by its documented semantics: a message is sunk iff its
level is at least the logger's level, and all sinks are flushed afterwards iff
the level is at least the `flush_on` threshold.
-/

namespace snow

/-- spdlog level values (spdlog/common.h). -/
def spdlogTrace : Nat := 0

def spdlogDebug : Nat := 1

def spdlogInfo : Nat := 2

def spdlogWarn : Nat := 3

def spdlogErr : Nat := 4

def spdlogCritical : Nat := 5

def spdlogOff : Nat := 6

/-- `enum LogSeverity` from base_log.h. -/
inductive LogSeverity
  | LOG_LEVEL_INFO
  | LOG_LEVEL_WARNING
  | LOG_LEVEL_ERROR
  | LOG_LEVEL_FATAL
  deriving DecidableEq

open LogSeverity

/-- The spdlog level chosen for a severity in `LogMessage::Flush`'s switch. -/
def severitySpdLevel : LogSeverity → Nat
  | LOG_LEVEL_INFO => spdlogInfo
  | LOG_LEVEL_WARNING => spdlogWarn
  | LOG_LEVEL_ERROR => spdlogErr
  | LOG_LEVEL_FATAL => spdlogCritical

/-- The level character chosen in `LogMessage::Flush`'s switch. -/
def levelChar : LogSeverity → Char
  | LOG_LEVEL_INFO => 'I'
  | LOG_LEVEL_WARNING => 'W'
  | LOG_LEVEL_ERROR => 'E'
  | LOG_LEVEL_FATAL => 'F'

/-- Sink identity: `stdout_color_sink_mt` or `rotating_file_sink_mt(path, max_size, max_files)`. -/
inductive SinkKind
  | console
  | rotatingFile (path : String) (max_file_size max_files : Nat)
  deriving DecidableEq

/-- A sink with its buffered (written, not yet flushed) and persisted lines. -/
structure Sink where
  kind : SinkKind
  buffered : List String
  persisted : List String
  deriving DecidableEq

def Sink.write (s : Sink) (line : String) : Sink :=
  { s with buffered := s.buffered ++ [line] }

def Sink.flush (s : Sink) : Sink :=
  { s with buffered := [], persisted := s.persisted ++ s.buffered }

/-- All lines a sink has accepted, in order (flushed or still buffered). -/
def sinkLines (s : Sink) : List String :=
  s.persisted ++ s.buffered

def Sink.isConsole (s : Sink) : Prop :=
  s.kind = SinkKind.console

def Sink.isFile (s : Sink) : Prop :=
  ∃ p msz mfl, s.kind = SinkKind.rotatingFile p msz mfl

instance (s : Sink) : Decidable s.isFile := by
  unfold Sink.isFile
  cases h : s.kind with
  | console => exact .isFalse (by simp [h])
  | rotatingFile p msz mfl => exact .isTrue ⟨p, msz, mfl, rfl⟩

/-- The spdlog logger object built by `Logger::Init`. -/
structure SpdLogger where
  sinks : List Sink
  level : Nat
  flushLevel : Nat
  deriving DecidableEq

/-- spdlog `logger::log`: drop if below the configured level, otherwise sink to
every sink in order and, when the level reaches the `flush_on` threshold,
flush every sink. -/
def SpdLogger.log (l : SpdLogger) (lvl : Nat) (msg : String) : SpdLogger :=
  if lvl < l.level then l
  else
    let written := l.sinks.map (fun s => s.write msg)
    if l.flushLevel ≤ lvl then
      { l with sinks := written.map Sink.flush }
    else
      { l with sinks := written }

def SpdLogger.flushAll (l : SpdLogger) : SpdLogger :=
  { l with sinks := l.sinks.map Sink.flush }

/-- Process-wide state: the static `LogMessage::logger_` pointer and whether
`std::abort` has run. -/
structure GlobalState where
  logger : Option SpdLogger
  terminated : Bool
  deriving DecidableEq

/-- The wall-clock fields printed by `Flush` (already adjusted: `tm_year + 1900`,
`tm_mon + 1`) together with the microsecond remainder. -/
structure Timestamp where
  year : Nat
  month : Nat
  day : Nat
  hour : Nat
  min : Nat
  sec : Nat
  usec : Nat
  deriving DecidableEq

/-- Ambient inputs resolved inside `Flush`: current time and the hash of the
calling thread's id. -/
structure Env where
  now : Timestamp
  threadHash : Nat
  deriving DecidableEq

/-- Decimal digit list of a natural number, fuel-based so it reduces in the
kernel.  `natDecListAux (n+1) n` always has enough fuel. -/
def natDecListAux : Nat → Nat → List Char
  | 0, _ => []
  | fuel + 1, n =>
    if n < 10 then [Nat.digitChar n]
    else natDecListAux fuel (n / 10) ++ [Nat.digitChar (n % 10)]

def natDecList (n : Nat) : List Char :=
  natDecListAux (n + 1) n

/-- Decimal rendering of a natural number (printf `%d` / `operator<<` on an
unsigned value such as the `size_t` thread hash). -/
def natDec (n : Nat) : String :=
  String.mk (natDecList n)

/-- Decimal rendering of an `int` (`operator<<` on `line_`). -/
def intDec (i : Int) : String :=
  if i < 0 then String.mk ('-' :: natDecList i.natAbs) else natDec i.toNat

/-- printf zero padding to width `w` (`%04d`, `%02d`, `%06ld`). -/
def pad (w n : Nat) : String :=
  String.mk (List.replicate (w - (natDecList n).length) '0' ++ natDecList n)

def isSep (c : Char) : Bool :=
  c = '/' || c = '\\'

/-- The characters after the last `/` or `\`; the whole list when no separator
occurs.  Mirrors `find_last_of("/\\")` followed by `substr(pos + 1)`. -/
def dropToLastSep : List Char → List Char
  | [] => []
  | c :: rest =>
    if rest.any isSep then dropToLastSep rest
    else if isSep c then rest
    else c :: rest

/-- `Flush`'s filename truncation: `filename.substr(pos + 1)` when a separator
is found, the original string otherwise. -/
def baseName (f : String) : String :=
  String.mk (dropToLastSep f.toList)

/-- The `time_str` buffer: `"%04d%02d%02d %02d:%02d:%02d.%06ld"`. -/
def timeStr (t : Timestamp) : String :=
  pad 4 t.year ++ pad 2 t.month ++ pad 2 t.day ++ " " ++
    pad 2 t.hour ++ ":" ++ pad 2 t.min ++ ":" ++ pad 2 t.sec ++ "." ++ pad 6 t.usec

/-- The `formatted_msg` stream in `Flush`:
`level_char << time_str << " " << thread_hash << " " << filename << ":" << line_ << "] " << message_`. -/
def formatLine (sev : LogSeverity) (t : Timestamp) (threadHash : Nat)
    (file : String) (line : Int) (msg : String) : String :=
  String.singleton (levelChar sev) ++ timeStr t ++ " " ++ natDec threadHash ++ " " ++
    baseName file ++ ":" ++ intDec line ++ "] " ++ msg

/-- Work `Flush` performs before handing the line to the logger, in source
order: clock capture, thread-id hashing, line rendering. -/
inductive FmtEvent
  | timestampCaptured
  | threadHashed
  | lineRendered
  deriving DecidableEq

/-- The per-call stream object: `LogMessage(severity, __FILE__, __LINE__)` with
its accumulated `message_` buffer. -/
structure LogMessage where
  severity_ : LogSeverity
  file_ : String
  line_ : Int
  message_ : String
  deriving DecidableEq

/-- `operator<<`: append the textual form of a value to the buffer. -/
def LogMessage.append (m : LogMessage) (text : String) : LogMessage :=
  { m with message_ := m.message_ ++ text }

/-- `LogMessage::Flush`: return at once when `logger_` is null; otherwise
capture the time, hash the thread id, truncate the filename, render the glog
line and call `logger_->log(spdlog_level, line)`.  The second component records
the formatting work actually performed. -/
def LogMessage.Flush (m : LogMessage) (env : Env) (st : GlobalState) :
    GlobalState × List FmtEvent :=
  match st.logger with
  | none => (st, [])
  | some l =>
    let line := formatLine m.severity_ env.now env.threadHash m.file_ m.line_ m.message_
    ({ st with logger := some (l.log (severitySpdLevel m.severity_) line) },
      [FmtEvent.timestampCaptured, FmtEvent.threadHashed, FmtEvent.lineRendered])

/-- `~LogMessage`: flush when the buffer is non-empty, then `std::abort()` when
the severity is FATAL. -/
def LogMessage.finalize (m : LogMessage) (env : Env) (st : GlobalState) :
    GlobalState × List FmtEvent :=
  let flushed := if m.message_ = "" then (st, []) else m.Flush env st
  (if m.severity_ = LOG_LEVEL_FATAL then { flushed.1 with terminated := true } else flushed.1,
    flushed.2)

/-- `Logger::Init`.  `fileSinkOk` models whether the
`rotating_file_sink_mt` constructor succeeds; on failure the catch block keeps
console-only output.  The console sink is pushed first, the file sink second
iff `log_file` is non-empty; the fresh logger replaces `LogMessage::logger_`
with level `level` and `flush_on(warn)`. -/
def Logger.Init (log_file : String) (max_file_size max_files : Nat) (level : Nat)
    (fileSinkOk : Bool) (st : GlobalState) : GlobalState :=
  let sinks :=
    [Sink.mk SinkKind.console [] []] ++
      (if ¬ log_file = "" ∧ fileSinkOk = true then
        [Sink.mk (SinkKind.rotatingFile log_file max_file_size max_files) [] []]
      else [])
  { st with logger := some (SpdLogger.mk sinks level spdlogWarn) }

/-- `Logger::SetLevel`: update the active logger's level, no-op when null. -/
def Logger.SetLevel (level : Nat) (st : GlobalState) : GlobalState :=
  match st.logger with
  | none => st
  | some l => { st with logger := some { l with level := level } }

/-- `Logger::Flush`: flush all sinks of the active logger, no-op when null. -/
def Logger.Flush (st : GlobalState) : GlobalState :=
  match st.logger with
  | none => st
  | some l => { st with logger := some l.flushAll }

/-- `Logger::Shutdown`: flush, drop the registration and null the pointer;
no-op when already null. -/
def Logger.Shutdown (st : GlobalState) : GlobalState :=
  match st.logger with
  | none => st
  | some _ => { st with logger := none }

/-- Expansion of the conditional macros
`LOG_*_IF(condition)  ≡  !(condition) ? (void)0 : snow::LogMessage(...) << args…`.
`chain` stands for the chained argument expressions of the call site: running it
yields the accumulated text together with the caller-side effects its evaluation
produces.  In the false branch the macro expands to `(void)0`, which contains no
`LogMessage` and no argument expression at all. -/
def logIfExpansion {ε : Type} (condition : Bool) (severity : LogSeverity)
    (file : String) (line : Int) (chain : Unit → String × List ε)
    (env : Env) (st : GlobalState) : GlobalState × List ε :=
  if condition = false then (st, [])
  else
    let run := chain ()
    (((LogMessage.mk severity file line run.1).finalize env st).1, run.2)

/-! ### Helper lemmas on the decimal renderer and the filename truncation -/

/-- Every character of `s` is a decimal digit. -/
def allDigits (s : String) : Prop :=
  ∀ c ∈ s.toList, c.isDigit = true

/-- No character of `s` is a path separator (the `[^/\\]` character class). -/
def noSeps (s : String) : Prop :=
  ∀ c ∈ s.toList, isSep c = false

/-- Structural match for the layout regex
`^[IWEF]\d{8} \d{2}:\d{2}:\d{2}\.\d{6} \d+ [^/\\]+:\d+\] .*$`:
the string splits into the level character, an 8-digit date, a
`HH:MM:SS.ffffff` clock with 2/2/2/6-digit fields, a non-empty digit run, a
non-empty separator-free file name, a non-empty digit run for the line, the
characters `"] "`, and an arbitrary message tail. -/
def layoutMatch (s : String) : Prop :=
  ∃ lc d hh mm ss us th bas ln msg,
    s = String.singleton lc ++ d ++ " " ++ hh ++ ":" ++ mm ++ ":" ++ ss ++ "." ++ us ++
        " " ++ th ++ " " ++ bas ++ ":" ++ ln ++ "] " ++ msg ∧
    (lc = 'I' ∨ lc = 'W' ∨ lc = 'E' ∨ lc = 'F') ∧
    d.length = 8 ∧ allDigits d ∧
    hh.length = 2 ∧ allDigits hh ∧
    mm.length = 2 ∧ allDigits mm ∧
    ss.length = 2 ∧ allDigits ss ∧
    us.length = 6 ∧ allDigits us ∧
    th ≠ "" ∧ allDigits th ∧
    bas ≠ "" ∧ noSeps bas ∧
    ln ≠ "" ∧ allDigits ln

instance (s : String) : Decidable (allDigits s) :=
  inferInstanceAs (Decidable (∀ c ∈ s.toList, c.isDigit = true))

instance (s : String) : Decidable (noSeps s) :=
  inferInstanceAs (Decidable (∀ c ∈ s.toList, isSep c = false))

theorem digitChar_isDigit {k : Nat} (h : k < 10) : (Nat.digitChar k).isDigit = true := by
  interval_cases k <;> decide

theorem natDecListAux_ne_nil (fuel n : Nat) (h : 0 < fuel) :
    natDecListAux fuel n ≠ [] := by
  cases fuel with
  | zero => omega
  | succ f =>
    unfold natDecListAux
    split
    · simp
    · simp

theorem natDecListAux_digits (fuel : Nat) :
    ∀ n c, c ∈ natDecListAux fuel n → c.isDigit = true := by
  induction fuel with
  | zero => intro n c hc; simp [natDecListAux] at hc
  | succ f ih =>
    intro n c hc
    unfold natDecListAux at hc
    by_cases h : n < 10
    · simp [h] at hc
      exact hc ▸ digitChar_isDigit h
    · simp [h] at hc
      rcases hc with hc | hc
      · exact ih _ _ hc
      · exact hc ▸ digitChar_isDigit (Nat.mod_lt _ (by omega))

theorem natDecListAux_length_le (fuel : Nat) :
    ∀ n w, n < fuel → 0 < w → n < 10 ^ w → (natDecListAux fuel n).length ≤ w := by
  induction fuel with
  | zero => intro n w h; omega
  | succ f ih =>
    intro n w hn hw hpow
    unfold natDecListAux
    by_cases h : n < 10
    · simp [h]; omega
    · simp [h]
      have hw2 : 2 ≤ w := by
        by_contra hcon
        have : w = 1 := by omega
        subst this
        simp [pow_one] at hpow
        omega
      have hdivfuel : n / 10 < f := by
        have := Nat.div_lt_self (by omega : 0 < n) (by omega : 1 < 10)
        omega
      have hdivpow : n / 10 < 10 ^ (w - 1) := by
        rw [Nat.div_lt_iff_lt_mul (by omega : 0 < 10)]
        have : 10 ^ (w - 1) * 10 = 10 ^ w := by
          rw [← pow_succ]
          congr 1
          omega
        omega
      have := ih (n / 10) (w - 1) hdivfuel (by omega) hdivpow
      omega

theorem natDecList_ne_nil (n : Nat) : natDecList n ≠ [] :=
  natDecListAux_ne_nil _ _ (by omega)

theorem natDecList_digits (n : Nat) : ∀ c ∈ natDecList n, c.isDigit = true :=
  fun c hc => natDecListAux_digits _ _ c hc

theorem natDecList_length_le (n w : Nat) (hw : 0 < w) (h : n < 10 ^ w) :
    (natDecList n).length ≤ w :=
  natDecListAux_length_le _ _ _ (by omega) hw h

theorem natDec_ne_empty (n : Nat) : natDec n ≠ "" := by
  intro h
  have : (natDec n).data = [] := by rw [h]
  exact natDecList_ne_nil n this

theorem natDec_digits (n : Nat) : allDigits (natDec n) :=
  fun c hc => natDecList_digits n c hc

theorem pad_length (w n : Nat) (hw : 0 < w) (h : n < 10 ^ w) :
    (pad w n).length = w := by
  have hle := natDecList_length_le n w hw h
  simp only [pad, String.length_mk, List.length_append, List.length_replicate]
  omega

theorem pad_digits (w n : Nat) : allDigits (pad w n) := by
  intro c hc
  simp only [pad, String.toList] at hc
  show c.isDigit = true
  rcases List.mem_append.mp hc with hc | hc
  · rw [List.eq_of_mem_replicate hc]; decide
  · exact natDecList_digits n c hc

theorem intDec_nonneg (i : Int) (h : 0 ≤ i) : intDec i = natDec i.toNat := by
  rw [intDec, if_neg (by omega)]

theorem dropToLastSep_no_sep (l : List Char) (h : ∀ c ∈ l, isSep c = false) :
    dropToLastSep l = l := by
  cases l with
  | nil => rfl
  | cons c rest =>
    have h1 : rest.any isSep = false := by
      rw [List.any_eq_false]
      intro x hx
      simp [h x (List.mem_cons_of_mem c hx)]
    have h2 : isSep c = false := h c (List.mem_cons_self c rest)
    simp [dropToLastSep, h1, h2]

theorem dropToLastSep_sep_free (l : List Char) :
    ∀ c ∈ dropToLastSep l, isSep c = false := by
  induction l with
  | nil => intro c hc; simp [dropToLastSep] at hc
  | cons a rest ih =>
    intro c hc
    unfold dropToLastSep at hc
    by_cases h1 : rest.any isSep
    · rw [if_pos h1] at hc
      exact ih c hc
    · rw [if_neg h1] at hc
      have hrest : ∀ x ∈ rest, isSep x = false := by
        rw [Bool.not_eq_true, List.any_eq_false] at h1
        intro x hx
        simpa using h1 x hx
      by_cases h2 : isSep a
      · rw [if_pos h2] at hc
        exact hrest c hc
      · rw [if_neg h2] at hc
        rcases List.mem_cons.mp hc with rfl | hc
        · simpa using h2
        · exact hrest c hc

theorem dropToLastSep_trailing_sep (pre : List Char) (c : Char) (h : isSep c = true) :
    dropToLastSep (pre ++ [c]) = [] := by
  induction pre with
  | nil => simp [dropToLastSep, h]
  | cons a rest ih =>
    have hany : (rest ++ [c]).any isSep = true := by
      rw [List.any_eq_true]
      exact ⟨c, by simp, h⟩
    simp only [List.cons_append, dropToLastSep, List.append_eq]
    rw [hany]
    simpa using ih

theorem baseName_sep_free (f : String) : noSeps (baseName f) :=
  fun c hc => dropToLastSep_sep_free f.toList c hc

theorem baseName_no_sep (f : String) (h : noSeps f) : baseName f = f := by
  apply String.ext
  exact dropToLastSep_no_sep f.toList h

theorem allDigits_append (a b : String) (ha : allDigits a) (hb : allDigits b) :
    allDigits (a ++ b) := by
  intro c hc
  simp only [String.toList, String.data_append, List.mem_append] at hc
  rcases hc with hc | hc
  · exact ha c hc
  · exact hb c hc

/-- The line rendered by `Flush`, regrouped per the documented layout:
level char, 8-char date, space, clock, space, thread hash, space, base
file, colon, line, `"] "`, message. -/
theorem formatLine_eq (sev : LogSeverity) (t : Timestamp) (th : Nat)
    (file : String) (line : Int) (msg : String) :
    formatLine sev t th file line msg =
      String.singleton (levelChar sev) ++ (pad 4 t.year ++ pad 2 t.month ++ pad 2 t.day) ++ " " ++
        pad 2 t.hour ++ ":" ++ pad 2 t.min ++ ":" ++ pad 2 t.sec ++ "." ++ pad 6 t.usec ++ " " ++
        natDec th ++ " " ++ baseName file ++ ":" ++ intDec line ++ "] " ++ msg := by
  apply String.ext
  simp only [formatLine, timeStr, String.data_append, List.append_assoc]

theorem formatLine_layoutMatch (sev : LogSeverity) (t : Timestamp) (th : Nat)
    (file : String) (line : Int) (msg : String)
    (hy : t.year < 10000) (hmo : t.month < 100) (hd : t.day < 100)
    (hh : t.hour < 100) (hmi : t.min < 100) (hs : t.sec < 100) (hus : t.usec < 1000000)
    (hline : 0 ≤ line) (hbase : baseName file ≠ "") :
    layoutMatch (formatLine sev t th file line msg) := by
  refine ⟨levelChar sev, pad 4 t.year ++ pad 2 t.month ++ pad 2 t.day, pad 2 t.hour,
    pad 2 t.min, pad 2 t.sec, pad 6 t.usec, natDec th, baseName file, natDec line.toNat,
    msg, ?_, ?_, ?_, ?_, ?_, ?_, ?_, ?_, ?_, ?_, ?_, ?_, ?_, ?_, ?_, ?_, ?_, ?_⟩
  · rw [formatLine_eq, intDec_nonneg line hline]
  · cases sev <;> simp [levelChar]
  · rw [String.length_append, String.length_append,
      pad_length 4 t.year (by omega) (by norm_num; omega),
      pad_length 2 t.month (by omega) (by norm_num; omega),
      pad_length 2 t.day (by omega) (by norm_num; omega)]
  · exact allDigits_append _ _ (allDigits_append _ _ (pad_digits 4 t.year)
      (pad_digits 2 t.month)) (pad_digits 2 t.day)
  · exact pad_length 2 t.hour (by omega) (by norm_num; omega)
  · exact pad_digits 2 t.hour
  · exact pad_length 2 t.min (by omega) (by norm_num; omega)
  · exact pad_digits 2 t.min
  · exact pad_length 2 t.sec (by omega) (by norm_num; omega)
  · exact pad_digits 2 t.sec
  · exact pad_length 6 t.usec (by omega) (by norm_num; omega)
  · exact pad_digits 6 t.usec
  · exact natDec_ne_empty th
  · exact natDec_digits th
  · exact hbase
  · exact baseName_sep_free file
  · exact natDec_ne_empty line.toNat
  · exact natDec_digits line.toNat

theorem GlobalState.eta (st : GlobalState) (l : SpdLogger) (h : st.logger = some l) :
    ({ st with logger := some l } : GlobalState) = st := by
  cases st
  simp only at h
  rw [h]

theorem SpdLogger.log_drop (l : SpdLogger) (lvl : Nat) (msg : String) (h : lvl < l.level) :
    l.log lvl msg = l := by
  rw [SpdLogger.log, if_pos h]

theorem SpdLogger.log_admitted_lines (l : SpdLogger) (lvl : Nat) (msg : String)
    (h : l.level ≤ lvl) :
    (l.log lvl msg).sinks.map sinkLines = l.sinks.map (fun s => sinkLines s ++ [msg]) := by
  rw [SpdLogger.log, if_neg (by omega)]
  by_cases hf : l.flushLevel ≤ lvl
  · simp [hf, sinkLines, Sink.write, Sink.flush, List.map_map, Function.comp]
  · simp [hf, sinkLines, Sink.write, List.map_map, Function.comp]

theorem SpdLogger.log_flushed (l : SpdLogger) (lvl : Nat) (msg : String)
    (hadm : l.level ≤ lvl) (hf : l.flushLevel ≤ lvl) :
    ∀ s ∈ (l.log lvl msg).sinks, s.buffered = [] := by
  intro s hs
  rw [SpdLogger.log, if_neg (by omega)] at hs
  simp only [hf, if_pos] at hs
  simp only [List.map_map, List.mem_map] at hs
  obtain ⟨s₀, _, rfl⟩ := hs
  rfl

/-! ### Claims -/

/-- C2: finalizing a FATAL record always terminates the process, for every
state and sink configuration; when the logger is active, the message non-empty
and the configured level and flush threshold admit `critical`, every sink has
been flushed (empty buffer) in the final state. -/
theorem fatal_terminates_after_flush (m : LogMessage) (env : Env) (st : GlobalState)
    (h : m.severity_ = LOG_LEVEL_FATAL) :
    (m.finalize env st).1.terminated = true ∧
      (∀ l, st.logger = some l → m.message_ ≠ "" → l.level ≤ spdlogCritical →
        l.flushLevel ≤ spdlogCritical →
        ∃ l', (m.finalize env st).1.logger = some l' ∧ ∀ s ∈ l'.sinks, s.buffered = []) := by
  constructor
  · simp [LogMessage.finalize, h]
  · intro l hl hmsg hlev hfl
    refine ⟨l.log (severitySpdLevel m.severity_)
      (formatLine m.severity_ env.now env.threadHash m.file_ m.line_ m.message_), ?_, ?_⟩
    · simp [LogMessage.finalize, LogMessage.Flush, hl, hmsg, h]
    · rw [h]
      exact SpdLogger.log_flushed l spdlogCritical _ hlev hfl

theorem fatal_terminates_after_flush_witness :
    ∃ l', ((LogMessage.mk LogSeverity.LOG_LEVEL_FATAL "a.cpp" 1 "boom").finalize
        ⟨⟨2024, 1, 2, 3, 4, 5, 6⟩, 9⟩
        ⟨some ⟨[⟨SinkKind.console, ["old"], []⟩], spdlogInfo, spdlogWarn⟩, false⟩).1.logger =
        some l' ∧ ∀ s ∈ l'.sinks, s.buffered = [] :=
  (fatal_terminates_after_flush _ _ _ rfl).2 _ rfl (by decide) (by decide) (by decide)

/-- C3 counterexample: with the registry uninitialized, finalizing a FATAL
record with a non-empty message is not a no-op — the process terminates. -/
theorem uninitialized_fatal_not_noop :
    (LogMessage.mk LogSeverity.LOG_LEVEL_FATAL "f.cpp" 1 "x").finalize
        ⟨⟨1, 1, 1, 0, 0, 0, 0⟩, 0⟩ ⟨none, false⟩ ≠
      (⟨none, false⟩, ([] : List FmtEvent)) := by
  decide

/-- C3 amended: while the registry is uninitialized, a log call at INFO,
WARNING or ERROR is a complete no-op (state unchanged, nothing formatted, no
output, no error), and a call at any severity produces no output and no
formatting work; a FATAL call still terminates the process. -/
theorem uninitialized_log_noop_except_fatal (m : LogMessage) (env : Env)
    (st : GlobalState) (hlog : st.logger = none) :
    (m.severity_ ≠ LogSeverity.LOG_LEVEL_FATAL → m.finalize env st = (st, [])) ∧
      (m.finalize env st).1.logger = none ∧ (m.finalize env st).2 = [] := by
  have hfl : m.Flush env st = (st, []) := by rw [LogMessage.Flush, hlog]
  have hbody : (if m.message_ = "" then (st, ([] : List FmtEvent)) else m.Flush env st)
      = (st, []) := by
    split
    · rfl
    · exact hfl
  refine ⟨?_, ?_, ?_⟩
  · intro hsev
    rw [LogMessage.finalize]
    rw [hbody, if_neg hsev]
  · rw [LogMessage.finalize, hbody]
    split
    · exact hlog
    · exact hlog
  · rw [LogMessage.finalize, hbody]

theorem uninitialized_log_noop_except_fatal_witness :
    (LogMessage.mk LogSeverity.LOG_LEVEL_WARNING "w.cpp" 2 "text").finalize
        ⟨⟨2024, 1, 2, 3, 4, 5, 6⟩, 9⟩ ⟨none, false⟩ = (⟨none, false⟩, []) :=
  (uninitialized_log_noop_except_fatal _ _ _ rfl).1 (by decide)

/-- C4: a record whose accumulated buffer is empty at finalization performs no
formatting work, passes nothing to the logger, and writes zero lines to any
sink, for every severity and source location. -/
theorem empty_message_no_output (m : LogMessage) (env : Env) (st : GlobalState)
    (h : m.message_ = "") :
    (m.finalize env st).1.logger = st.logger ∧ (m.finalize env st).2 = [] := by
  constructor
  · simp only [LogMessage.finalize, h, if_pos]
    split <;> rfl
  · simp [LogMessage.finalize, h]

theorem empty_message_no_output_witness :
    ((LogMessage.mk LogSeverity.LOG_LEVEL_ERROR "e.cpp" 3 "").finalize
        ⟨⟨2024, 1, 2, 3, 4, 5, 6⟩, 9⟩
        ⟨some ⟨[⟨SinkKind.console, [], []⟩], spdlogInfo, spdlogWarn⟩, false⟩).1.logger =
        some ⟨[⟨SinkKind.console, [], []⟩], spdlogInfo, spdlogWarn⟩ ∧
      ((LogMessage.mk LogSeverity.LOG_LEVEL_ERROR "e.cpp" 3 "").finalize
        ⟨⟨2024, 1, 2, 3, 4, 5, 6⟩, 9⟩
        ⟨some ⟨[⟨SinkKind.console, [], []⟩], spdlogInfo, spdlogWarn⟩, false⟩).2 = [] :=
  empty_message_no_output _ _ _ rfl

/-- C6: when the guarding predicate of a conditional log macro is false, the
expansion is `(void)0`: no `LogMessage` is constructed, none of the chained
argument expressions run (no caller-side effects), and the state is unchanged. -/
theorem false_condition_skips_evaluation {ε : Type} (condition : Bool)
    (sev : LogSeverity) (file : String) (line : Int)
    (chain : Unit → String × List ε) (env : Env) (st : GlobalState)
    (h : condition = false) :
    logIfExpansion condition sev file line chain env st = (st, []) := by
  rw [logIfExpansion, if_pos h]

theorem false_condition_skips_evaluation_witness :
    logIfExpansion false LogSeverity.LOG_LEVEL_INFO "i.cpp" 4
        (fun _ => ("probe fired", [7])) ⟨⟨2024, 1, 2, 3, 4, 5, 6⟩, 9⟩ ⟨none, false⟩ =
      (⟨none, false⟩, ([] : List Nat)) :=
  false_condition_skips_evaluation false _ _ _ _ _ _ rfl

/-- C10: destroying a FATAL `LogMessage` terminates the process in every case;
with a null logger or an empty accumulated message it still terminates while
producing no output line and doing no formatting work. -/
theorem fatal_always_aborts (m : LogMessage) (env : Env) (st : GlobalState)
    (h : m.severity_ = LogSeverity.LOG_LEVEL_FATAL) :
    (m.finalize env st).1.terminated = true ∧
      (st.logger = none →
        (m.finalize env st).1 = { st with terminated := true } ∧ (m.finalize env st).2 = []) ∧
      (m.message_ = "" →
        (m.finalize env st).1 = { st with terminated := true } ∧ (m.finalize env st).2 = []) := by
  refine ⟨?_, ?_, ?_⟩
  · simp [LogMessage.finalize, h]
  · intro hlog
    have hfl : m.Flush env st = (st, []) := by
      simp [LogMessage.Flush, hlog]
    constructor
    · simp only [LogMessage.finalize, h, if_pos, hfl]
      split <;> rfl
    · simp only [LogMessage.finalize, hfl]
      split <;> rfl
  · intro hmsg
    constructor
    · simp only [LogMessage.finalize, hmsg, if_pos, h]
    · simp [LogMessage.finalize, hmsg]

theorem fatal_always_aborts_witness :
    ((LogMessage.mk LogSeverity.LOG_LEVEL_FATAL "f.cpp" 1 "").finalize
        ⟨⟨2024, 1, 2, 3, 4, 5, 6⟩, 9⟩ ⟨none, false⟩).1.terminated = true ∧
      ((LogMessage.mk LogSeverity.LOG_LEVEL_FATAL "f.cpp" 1 "").finalize
        ⟨⟨2024, 1, 2, 3, 4, 5, 6⟩, 9⟩ ⟨none, false⟩).1 =
        { (⟨none, false⟩ : GlobalState) with terminated := true } :=
  ⟨(fatal_always_aborts _ _ _ rfl).1, ((fatal_always_aborts _ _ _ rfl).2.1 rfl).1⟩

/-- Finalizing with an active logger and a non-empty buffer renders the line,
hands it to `logger_->log`, and reports the three formatting steps. -/
theorem LogMessage.finalize_active (m : LogMessage) (env : Env) (st : GlobalState)
    (l : SpdLogger) (hl : st.logger = some l) (hmsg : m.message_ ≠ "") :
    (m.finalize env st).1.logger =
      some (l.log (severitySpdLevel m.severity_)
        (formatLine m.severity_ env.now env.threadHash m.file_ m.line_ m.message_)) ∧
      (m.finalize env st).2 =
        [FmtEvent.timestampCaptured, FmtEvent.threadHashed, FmtEvent.lineRendered] := by
  constructor
  · simp only [LogMessage.finalize, LogMessage.Flush, hl, hmsg, if_neg]
    split <;> rfl
  · simp [LogMessage.finalize, LogMessage.Flush, hl, hmsg]

/-- C5: after `SetLevel(err)` on an active logger, finalizing a non-empty
WARNING record changes nothing, finalizing a non-empty ERROR record appends the
rendered line to every sink; in general, with an active logger owning at least
one sink, the rendered line reaches the sinks iff the record's severity maps to
a spdlog level at or above the logger's configured minimum. -/
theorem setlevel_admission_filter (l : SpdLogger) (st : GlobalState)
    (hlog : st.logger = some l) :
    (∀ (m : LogMessage) (env : Env), m.severity_ = LOG_LEVEL_WARNING → m.message_ ≠ "" →
      (m.finalize env (Logger.SetLevel spdlogErr st)).1 = Logger.SetLevel spdlogErr st) ∧
      (∀ (m : LogMessage) (env : Env), m.severity_ = LOG_LEVEL_ERROR → m.message_ ≠ "" →
        ∃ l', (m.finalize env (Logger.SetLevel spdlogErr st)).1.logger = some l' ∧
          l'.sinks.map sinkLines = l.sinks.map (fun s => sinkLines s ++
            [formatLine m.severity_ env.now env.threadHash m.file_ m.line_ m.message_])) ∧
      (∀ (m : LogMessage) (env : Env) (l₂ : SpdLogger) (st₂ : GlobalState),
        st₂.logger = some l₂ → m.message_ ≠ "" → l₂.sinks ≠ [] →
        ((∃ l', (m.finalize env st₂).1.logger = some l' ∧
            l'.sinks.map sinkLines = l₂.sinks.map (fun s => sinkLines s ++
              [formatLine m.severity_ env.now env.threadHash m.file_ m.line_ m.message_])) ↔
          l₂.level ≤ severitySpdLevel m.severity_)) := by
  have hstE : Logger.SetLevel spdlogErr st =
      { st with logger := some { l with level := spdlogErr } } := by
    simp [Logger.SetLevel, hlog]
  refine ⟨?_, ?_, ?_⟩
  · intro m env hsev hmsg
    obtain ⟨sev, fl, ln, ms⟩ := m
    simp only at hsev hmsg
    subst hsev
    have hdrop : ({ l with level := spdlogErr } : SpdLogger).log
        (severitySpdLevel LOG_LEVEL_WARNING)
        (formatLine LOG_LEVEL_WARNING env.now env.threadHash fl ln ms) =
        { l with level := spdlogErr } :=
      SpdLogger.log_drop _ _ _
        (show severitySpdLevel LOG_LEVEL_WARNING < spdlogErr by decide)
    rw [hstE]
    simp [LogMessage.finalize, LogMessage.Flush, hmsg, hdrop]
  · intro m env hsev hmsg
    have hact := LogMessage.finalize_active m env (Logger.SetLevel spdlogErr st)
      { l with level := spdlogErr } (by rw [hstE]) hmsg
    refine ⟨_, hact.1, ?_⟩
    exact SpdLogger.log_admitted_lines _ _ _
      (by rw [hsev]; exact (show spdlogErr ≤ severitySpdLevel LOG_LEVEL_ERROR by decide))
  · intro m env l₂ st₂ hl₂ hmsg hsinks
    have hact := LogMessage.finalize_active m env st₂ l₂ hl₂ hmsg
    constructor
    · rintro ⟨l', hl', hmap⟩
      by_contra hadm
      push_neg at hadm
      have hdrop := SpdLogger.log_drop l₂ (severitySpdLevel m.severity_)
        (formatLine m.severity_ env.now env.threadHash m.file_ m.line_ m.message_) hadm
      rw [hact.1, hdrop] at hl'
      obtain rfl : l₂ = l' := by injection hl'
      cases hsk : l₂.sinks with
      | nil => exact hsinks hsk
      | cons s ss =>
        rw [hsk] at hmap
        have := congrArg List.head? hmap
        simp at this
    · intro hadm
      exact ⟨_, hact.1, SpdLogger.log_admitted_lines _ _ _ hadm⟩

theorem setlevel_admission_filter_witness :
    ((LogMessage.mk LogSeverity.LOG_LEVEL_WARNING "w.cpp" 2 "warn text").finalize
        ⟨⟨2024, 1, 2, 3, 4, 5, 6⟩, 9⟩
        (Logger.SetLevel spdlogErr
          ⟨some ⟨[⟨SinkKind.console, [], []⟩], spdlogInfo, spdlogWarn⟩, false⟩)).1 =
      Logger.SetLevel spdlogErr
        ⟨some ⟨[⟨SinkKind.console, [], []⟩], spdlogInfo, spdlogWarn⟩, false⟩ :=
  (setlevel_admission_filter ⟨[⟨SinkKind.console, [], []⟩], spdlogInfo, spdlogWarn⟩ _
    rfl).1 _ _ rfl (by decide)

/-- C8 counterexample: a below-minimum record still pays the formatting cost —
with the logger set to `err`, flushing an INFO record performs the timestamp
capture, the thread hashing and the line rendering (the admission check only
runs inside `logger_->log`, after formatting). -/
theorem below_min_still_pays_formatting :
    severitySpdLevel LogSeverity.LOG_LEVEL_INFO < spdlogErr ∧
      ((LogMessage.mk LogSeverity.LOG_LEVEL_INFO "a.cpp" 1 "x").Flush
        ⟨⟨2024, 1, 2, 3, 4, 5, 6⟩, 9⟩
        ⟨some ⟨[⟨SinkKind.console, [], []⟩], spdlogErr, spdlogWarn⟩, false⟩).2 ≠ [] := by
  decide

/-- C8 amended: a record whose severity is below the logger's minimum produces
no output and leaves the state unchanged, but only after the full formatting
work — timestamp capture, thread-identity hashing and line rendering all still
run; the record is dropped by the admission check inside `logger_->log`. -/
theorem below_min_dropped_after_formatting (m : LogMessage) (env : Env)
    (l : SpdLogger) (st : GlobalState) (hlog : st.logger = some l)
    (hlt : severitySpdLevel m.severity_ < l.level) :
    (m.Flush env st).1 = st ∧
      (m.Flush env st).2 =
        [FmtEvent.timestampCaptured, FmtEvent.threadHashed, FmtEvent.lineRendered] := by
  have hdrop := SpdLogger.log_drop l (severitySpdLevel m.severity_)
    (formatLine m.severity_ env.now env.threadHash m.file_ m.line_ m.message_) hlt
  constructor
  · simp only [LogMessage.Flush, hlog, hdrop]
    exact GlobalState.eta st l hlog
  · simp only [LogMessage.Flush, hlog]

theorem below_min_dropped_after_formatting_witness :
    ((LogMessage.mk LogSeverity.LOG_LEVEL_INFO "a.cpp" 1 "x").Flush
        ⟨⟨2024, 1, 2, 3, 4, 5, 6⟩, 9⟩
        ⟨some ⟨[⟨SinkKind.console, [], []⟩], spdlogErr, spdlogWarn⟩, false⟩).1 =
      ⟨some ⟨[⟨SinkKind.console, [], []⟩], spdlogErr, spdlogWarn⟩, false⟩ :=
  (below_min_dropped_after_formatting _ _ _ _ rfl (by decide)).1

/-- C9 counterexample: for a path ending in a separator the computed base name
is empty and is used as-is — the original string is not restored, so the
rendered line shows an empty file-name field. -/
theorem trailing_sep_empty_basename :
    baseName "dir/" = "" ∧ ("dir/" : String) ≠ "" ∧
      formatLine LogSeverity.LOG_LEVEL_INFO ⟨1, 1, 1, 0, 0, 0, 0⟩ 7 "dir/" 3 "m" =
        "I00010101 00:00:00.000000 7 :3] m" := by
  decide

/-- C9 amended: the formatted line shows the substring of the path after the
last `/` or `\`; if the path contains no separator the original string is used
unmodified; the result never contains a separator; but when the path ends in a
separator the computed base name is the empty string and is used as-is (the
original path is not restored). -/
theorem basename_truncation (f : String) (pre : List Char) (c : Char) :
    (noSeps f → baseName f = f) ∧
      noSeps (baseName f) ∧
      (f.toList = pre ++ [c] → isSep c = true → baseName f = "") := by
  refine ⟨baseName_no_sep f, baseName_sep_free f, ?_⟩
  intro hf hc
  rw [baseName, hf, dropToLastSep_trailing_sep pre c hc]

theorem basename_truncation_witness :
    baseName "a.cpp" = "a.cpp" ∧ baseName "d/" = "" :=
  ⟨(basename_truncation "a.cpp" [] ' ').1 (by decide),
    (basename_truncation "d/" ['d'] '/').2.2 (by decide) (by decide)⟩

/-- C1: finalizing a record with any of the four severities, a non-empty
message and an active logger that admits it appends one rendered line to every
sink, and that line is exactly
`<LevelChar><YYYYMMDD> <HH:MM:SS.ffffff> <ThreadHash> <BaseFile>:<Line>] <Message>`
(level character I/W/E/F, 4-digit year, 2-digit zero-padded month, day, hour,
minute, second, 6-digit zero-padded microseconds, decimal thread hash, base
file name, line number), matching the layout regex
`^[IWEF]\d{8} \d{2}:\d{2}:\d{2}\.\d{6} \d+ [^/\\]+:\d+\] .*$`. -/
theorem flush_renders_glog_layout (m : LogMessage) (env : Env) (l : SpdLogger)
    (st : GlobalState) (hlog : st.logger = some l) (hmsg : m.message_ ≠ "")
    (hadm : l.level ≤ severitySpdLevel m.severity_)
    (hy : env.now.year < 10000) (hmo : env.now.month < 100) (hd : env.now.day < 100)
    (hh : env.now.hour < 100) (hmi : env.now.min < 100) (hs : env.now.sec < 100)
    (hus : env.now.usec < 1000000) (hline : 0 ≤ m.line_)
    (hbase : baseName m.file_ ≠ "") :
    ∃ l', (m.finalize env st).1.logger = some l' ∧
      l'.sinks.map sinkLines = l.sinks.map (fun s => sinkLines s ++
        [formatLine m.severity_ env.now env.threadHash m.file_ m.line_ m.message_]) ∧
      formatLine m.severity_ env.now env.threadHash m.file_ m.line_ m.message_ =
        String.singleton (levelChar m.severity_) ++
          (pad 4 env.now.year ++ pad 2 env.now.month ++ pad 2 env.now.day) ++ " " ++
          pad 2 env.now.hour ++ ":" ++ pad 2 env.now.min ++ ":" ++ pad 2 env.now.sec ++
          "." ++ pad 6 env.now.usec ++ " " ++ natDec env.threadHash ++ " " ++
          baseName m.file_ ++ ":" ++ natDec m.line_.toNat ++ "] " ++ m.message_ ∧
      layoutMatch (formatLine m.severity_ env.now env.threadHash m.file_ m.line_ m.message_) := by
  have hact := LogMessage.finalize_active m env st l hlog hmsg
  refine ⟨_, hact.1, SpdLogger.log_admitted_lines _ _ _ hadm, ?_, ?_⟩
  · rw [formatLine_eq, intDec_nonneg m.line_ hline]
  · exact formatLine_layoutMatch _ _ _ _ _ _ hy hmo hd hh hmi hs hus hline hbase

theorem flush_renders_glog_layout_witness :
    layoutMatch (formatLine LogSeverity.LOG_LEVEL_INFO ⟨2023, 12, 24, 9, 30, 45, 123456⟩
      12345 "src/file.cpp" 123 "message") :=
  match flush_renders_glog_layout
      (LogMessage.mk LogSeverity.LOG_LEVEL_INFO "src/file.cpp" 123 "message")
      ⟨⟨2023, 12, 24, 9, 30, 45, 123456⟩, 12345⟩
      ⟨[⟨SinkKind.console, [], []⟩], spdlogInfo, spdlogWarn⟩
      ⟨some ⟨[⟨SinkKind.console, [], []⟩], spdlogInfo, spdlogWarn⟩, false⟩
      rfl (by decide) (by decide) (by decide) (by decide) (by decide) (by decide)
      (by decide) (by decide) (by decide) (by decide) (by decide) with
  | ⟨_, _, _, _, hlay⟩ => hlay

/-- C7: every `Init` call builds a fresh logger whose sink list starts with the
console sink and contains a rotating file sink iff the path is non-empty (all
sinks fresh and empty), and installs it as the registry's single active logger
wholesale, independent of whatever logger was active before. -/
theorem init_builds_fresh_logger (log_file : String) (msz mfl lvl : Nat)
    (st : GlobalState) :
    ∃ L, (Logger.Init log_file msz mfl lvl true st).logger = some L ∧
      L.sinks.head? = some (Sink.mk SinkKind.console [] []) ∧
      ((∃ s ∈ L.sinks, s.isFile) ↔ log_file ≠ "") ∧
      (∀ s ∈ L.sinks, s.buffered = [] ∧ s.persisted = []) ∧
      (∀ st₂ : GlobalState, (Logger.Init log_file msz mfl lvl true st₂).logger = some L) := by
  by_cases hf : log_file = ""
  · refine ⟨SpdLogger.mk [Sink.mk SinkKind.console [] []] lvl spdlogWarn,
      ?_, rfl, ?_, ?_, ?_⟩
    · simp [Logger.Init, hf]
    · simp [Sink.isFile, hf]
    · intro s hs
      simp at hs
      subst hs
      exact ⟨rfl, rfl⟩
    · intro st₂
      simp [Logger.Init, hf]
  · refine ⟨SpdLogger.mk [Sink.mk SinkKind.console [] [],
      Sink.mk (SinkKind.rotatingFile log_file msz mfl) [] []] lvl spdlogWarn,
      ?_, rfl, ?_, ?_, ?_⟩
    · simp [Logger.Init, hf]
    · simp [Sink.isFile, hf]
    · intro s hs
      simp at hs
      rcases hs with hs | hs <;> subst hs <;> exact ⟨rfl, rfl⟩
    · intro st₂
      simp [Logger.Init, hf]

theorem init_builds_fresh_logger_witness :
    ∃ L, (Logger.Init "app.log" 1024 5 spdlogInfo true ⟨none, false⟩).logger = some L ∧
      ∃ s ∈ L.sinks, s.isFile :=
  match init_builds_fresh_logger "app.log" 1024 5 spdlogInfo ⟨none, false⟩ with
  | ⟨L, h1, _, hiff, _, _⟩ => ⟨L, h1, hiff.mpr (by decide)⟩

end snow
